import Mathlib

/-!
Shallow embedding of `src/cf-deploy.py` (cf-deploy: a CloudFormation
sequence orchestrator).  The embedded functions keep the names of the
Python functions they model: `wait_stack`, `deploy_in_order`,
`deploy_parallel`, `delete_in_reverse_order`, `delete_parallel`.

Modelling decisions:
* A stack parameter dict is the structure `StackOp`; the optional
  `"StackId"` key is an `Option String` field.
* The boto3 client is an oracle `Gateway`: each remote call either
  returns a value (`Except.ok`) or raises (`Except.error`).  The
  oracle is a pure function of the call arguments, so one run calls
  each operation at most once and gets a deterministic answer.
* Python in-place mutation plus exceptions is modelled by having every
  runner return the (possibly partially mutated) list together with
  the list of emitted events (API invocations and log lines) and an
  `Option PyError` holding the exception that propagates out of the
  function, `none` when it returns normally.
* The orchestrator join loop `while <cond>: sleep(1)` is modelled by
  `joinReturnsWithin`: given the guard and the evolution of worker
  liveness over poll times, it decides whether the loop exits within a
  given number of polls.
-/

/-- One stack parameter dict as built by `build_template_params`:
`StackName`, `TemplateBody`, `Parameters`, `Capabilities`, and the
optional `StackId` key that `deploy_in_order` adds (line 91) and
`delete_in_reverse_order` pops (line 123). -/
structure StackOp where
  StackName : String
  TemplateBody : String
  Parameters : List (String × String)
  Capabilities : List String
  StackId : Option String := none
deriving Repr, DecidableEq

/-- Exceptions of the embedded program.  `gateway` and `waiter` stand
for the exceptions boto3 calls and `waiter.wait` raise; `valueError`
is the `ValueError(method)` of `deploy_in_order` line 86. -/
inductive PyError where
  | gateway (msg : String)
  | waiter (msg : String)
  | valueError (tag : String)
deriving Repr, DecidableEq

/-- The boto3 CloudFormation client as an oracle.  `create`/`update`
return `response["StackId"]` on success; `delete` returns nothing;
`wait` is the outcome of `waiter.wait(StackName = n, WaiterConfig =
\x7bDelay, MaxAttempts\x7d)` for waiter `operation`. -/
structure Gateway where
  create : StackOp → Except PyError String
  update : StackOp → Except PyError String
  delete : String → Except PyError Unit
  wait : String → String → Nat → Nat → Except PyError Unit

/-- Observable events of a run: remote API invocations (recorded at
the moment the call starts, whether or not it then raises) and log
lines. -/
inductive Event where
  | methodCall (stackName : String)
  | deleteCall (stackName : String)
  | waitCall (operation : String) (stackName : String) (delay : Nat) (maxAttempts : Nat)
  | logInfo (msg : String)
  | logError (e : PyError)
deriving Repr, DecidableEq

/-- Is the event a remote API invocation (as opposed to a log line)? -/
def isGatewayEvent : Event → Bool
  | .methodCall _ => true
  | .deleteCall _ => true
  | .waitCall _ _ _ _ => true
  | _ => false

/-- Projection of a trace to its remote API invocations. -/
def gwTrace (evs : List Event) : List Event :=
  evs.filter isGatewayEvent

/-- Did the call return normally? -/
def exOk {ε α : Type} : Except ε α → Bool
  | .ok _ => true
  | .error _ => false

/-- Source lines 51 to 58: `wait_stack(operation, stack_name, delay=5,
max_attempts=120)` builds the waiter and blocks on `waiter.wait`; it
returns `True` when the waiter succeeds and propagates the waiter
exception otherwise.  The result records the wait invocation (with the
actual delay and attempt budget) as an event. -/
def wait_stack (gw : Gateway) (operation stack_name : String)
    (delay : Nat := 5) (max_attempts : Nat := 120) :
    List Event × Except PyError Bool :=
  ([Event.waitCall operation stack_name delay max_attempts],
    match gw.wait operation stack_name delay max_attempts with
    | .ok _ => .ok true
    | .error e => .error e)

/-- The `method` argument of `deploy_in_order`.  The source compares
it by identity against `create_stack` and `update_stack`; every other
callable falls into `other`. -/
inductive Method where
  | create_stack
  | update_stack
  | other (tag : String)
deriving Repr, DecidableEq

/-- Gateway call selected by the method dispatch of `deploy_in_order`
(lines 79 to 84).  The `other` branch is never invoked by the runner,
which raises `ValueError` first; it is given a vacuous value only to
keep the function total. -/
def methodCallFn (gw : Gateway) : Method → (StackOp → Except PyError String)
  | .create_stack => gw.create
  | .update_stack => gw.update
  | .other tag => fun _ => .error (.valueError tag)

/-- Waiter name selected by the method dispatch (lines 80 and 83). -/
def methodWaitOp : Method → String
  | .create_stack => "stack_create_complete"
  | .update_stack => "stack_update_complete"
  | .other _ => ""

/-- Progress word selected by the method dispatch (lines 81 and 84). -/
def methodMsg : Method → String
  | .create_stack => "created"
  | .update_stack => "updated"
  | .other _ => ""

/-- The `for param in stack_params` loop of `deploy_in_order` (lines
89 to 95), parameterised by the dispatched gateway call, waiter name
and progress word.  Per iteration: invoke the call (line 90); on
success store the returned StackId on the param (line 91), log
"is being <message>" (line 92), block on `wait_stack` with its default
budget (line 94), and on wait success log "is created" (line 95 of
`src/cf-deploy.py`, which hardcodes the word `created`).  The first
exception stops the loop; the third component is the exception the
loop body raised, `none` when every iteration succeeded. -/
def deployLoop (gw : Gateway) (call : StackOp → Except PyError String)
    (wait_operation message : String) :
    List StackOp → List StackOp × List Event × Option PyError
  | [] => ([], [], none)
  | param :: rest =>
    match call param with
    | .error e => (param :: rest, [Event.methodCall param.StackName], some e)
    | .ok stackId =>
      let param' : StackOp := { param with StackId := some stackId }
      let evs₁ : List Event :=
        [Event.methodCall param.StackName,
         Event.logInfo (param.StackName ++ " is being " ++ message)]
      let w := wait_stack gw wait_operation param'.StackName
      match w.2 with
      | .error e => (param' :: rest, evs₁ ++ w.1, some e)
      | .ok _ =>
        let r := deployLoop gw call wait_operation message rest
        (param' :: r.1,
          evs₁ ++ w.1 ++ [Event.logInfo (param.StackName ++ " is created")] ++ r.2.1,
          r.2.2)

/-- The `try ... except Exception as e: logger.error(e)` wrapper of
the runners (lines 88 and 96 to 97): the exception raised inside the
loop, if any, is consumed and logged, and nothing propagates. -/
def reportCatch (r : List StackOp × List Event × Option PyError) :
    List StackOp × List Event × Option PyError :=
  match r.2.2 with
  | some e => (r.1, r.2.1 ++ [Event.logError e], none)
  | none => (r.1, r.2.1, none)

/-- Source lines 78 to 99: `deploy_in_order(stack_params,
method=create_stack)`.  The method dispatch happens before the
`try` block, so an unrecognised method raises `ValueError(method)`
with no gateway call made and the list untouched; with a recognised
method the loop runs under the `try`, every loop exception is logged
and swallowed, and `stack_params` is returned. -/
def deploy_in_order (gw : Gateway) (stack_params : List StackOp)
    (method : Method := Method.create_stack) :
    List StackOp × List Event × Option PyError :=
  match method with
  | .other tag => (stack_params, [], some (.valueError tag))
  | m => reportCatch
      (deployLoop gw (methodCallFn gw m) (methodWaitOp m) (methodMsg m) stack_params)

/-- The `for param in reversed(stack_params)` loop of
`delete_in_reverse_order` (lines 118 to 124), acting on an
already-reversed list.  Per iteration: invoke `delete_stack` (line
119); on success log "is being deleted" (line 120), block on
`wait_stack("stack_delete_complete", ...)` (line 122), and on wait
success pop the StackId (line 123) and log "is deleted" (line 124). -/
def deleteLoop (gw : Gateway) :
    List StackOp → List StackOp × List Event × Option PyError
  | [] => ([], [], none)
  | param :: rest =>
    match gw.delete param.StackName with
    | .error e => (param :: rest, [Event.deleteCall param.StackName], some e)
    | .ok _ =>
      let evs₁ : List Event :=
        [Event.deleteCall param.StackName,
         Event.logInfo (param.StackName ++ " is being deleted")]
      let w := wait_stack gw "stack_delete_complete" param.StackName
      match w.2 with
      | .error e => (param :: rest, evs₁ ++ w.1, some e)
      | .ok _ =>
        let param' : StackOp := { param with StackId := none }
        let r := deleteLoop gw rest
        (param' :: r.1,
          evs₁ ++ w.1 ++ [Event.logInfo (param.StackName ++ " is deleted")] ++ r.2.1,
          r.2.2)

/-- Source lines 116 to 128: `delete_in_reverse_order(stack_params)`.
The loop walks the reversed list (mutating the shared elements in
place, so the returned list is in the original order); the `try`
wrapper logs and swallows any loop exception. -/
def delete_in_reverse_order (gw : Gateway) (stack_params : List StackOp) :
    List StackOp × List Event × Option PyError :=
  let r := reportCatch (deleteLoop gw stack_params.reverse)
  (r.1.reverse, r.2.1, r.2.2)

/-- Mutation effect of `deploy_parallel` (lines 102 to 113) on the
sequences: one worker thread per sequence runs `deploy_in_order
(stacks, method)` to completion on its own sequence, and no two
workers share a sequence.  The join loop itself (line 110) is
modelled separately by `join_loop_cond` and `joinReturnsWithin`. -/
def deploy_parallel (gw : Gateway) (stack_sequences : List (List StackOp))
    (method : Method := Method.create_stack) : List (List StackOp) :=
  stack_sequences.map (fun s => (deploy_in_order gw s method).1)

/-- Mutation effect of `delete_parallel` (lines 131 to 141) on the
sequences, one `delete_in_reverse_order` worker per sequence. -/
def delete_parallel (gw : Gateway) (stack_sequences : List (List StackOp)) :
    List (List StackOp) :=
  stack_sequences.map (fun s => (delete_in_reverse_order gw s).1)

/-- Guard of the join loop in `src/cf-deploy.py` lines 110 and 138:
`while filter(lambda job: job.is_alive(), jobs):`.  In Python 3,
`filter(...)` returns a lazy filter object that defines neither
`__bool__` nor `__len__`, so its truth value is `True` whatever the
liveness flags are: the guard never becomes false. -/
def join_loop_cond (jobsAlive : List Bool) : Bool :=
  true

/-- Guard of the join loop in `src/scripts/cf-deploy.py` lines 110 and
138: `while list(filter(lambda job: job.is_alive(), jobs)):` — true
exactly when some worker is still alive. -/
def join_loop_cond_scripts (jobsAlive : List Bool) : Bool :=
  !(jobsAlive.filter (fun b => b)).isEmpty

/-- Halting behaviour of `while cond(jobs): sleep(1)`: given the guard
and the worker liveness flags at each poll time, `joinReturnsWithin
cond liveness n = true` says the guard is false at one of the polls
0, 1, ..., n, so the loop exits (and the orchestrator returns) within
the first n+1 polls. -/
def joinReturnsWithin (cond : List Bool → Bool) (liveness : Nat → List Bool) :
    Nat → Bool
  | 0 => !cond (liveness 0)
  | n + 1 => !cond (liveness 0) || joinReturnsWithin cond (fun t => liveness (t + 1)) n

/-- Effect of a successful `method(param)` call on the param: the
returned StackId is stored (line 91).  When the call raises, the param
is left as it was. -/
def setIdWith (call : StackOp → Except PyError String) (p : StackOp) : StackOp :=
  match call p with
  | .ok v => { p with StackId := some v }
  | .error _ => p

/-- Effect of a successful delete on the param: the StackId key is
popped (line 123). -/
def clearId (p : StackOp) : StackOp :=
  { p with StackId := none }

/-- Does the forward iteration for `p` run to completion, i.e. both
the gateway call and its wait return normally? -/
def opOk (gw : Gateway) (call : StackOp → Except PyError String)
    (waitOp : String) (p : StackOp) : Bool :=
  exOk (call p) && exOk (gw.wait waitOp p.StackName 5 120)

/-- Does the teardown iteration for `p` run to completion? -/
def delOpOk (gw : Gateway) (p : StackOp) : Bool :=
  exOk (gw.delete p.StackName) &&
    exOk (gw.wait "stack_delete_complete" p.StackName 5 120)

/-- Events of one fully successful forward iteration. -/
def succTrace (waitOp msg : String) (p : StackOp) : List Event :=
  [Event.methodCall p.StackName,
   Event.logInfo (p.StackName ++ " is being " ++ msg),
   Event.waitCall waitOp p.StackName 5 120,
   Event.logInfo (p.StackName ++ " is created")]

/-- Remote API invocations of one fully successful forward iteration:
the method call followed by its wait. -/
def gwPair (waitOp : String) (p : StackOp) : List Event :=
  [Event.methodCall p.StackName, Event.waitCall waitOp p.StackName 5 120]

/-- Events of the forward iteration at which the sequence fails: just
the method call when the call itself raises; call, progress log and
wait when the wait raises. -/
def deployFailTrace (call : StackOp → Except PyError String)
    (waitOp msg : String) (p : StackOp) : List Event :=
  match call p with
  | .error _ => [Event.methodCall p.StackName]
  | .ok _ =>
    [Event.methodCall p.StackName,
     Event.logInfo (p.StackName ++ " is being " ++ msg),
     Event.waitCall waitOp p.StackName 5 120]

/-- The exception raised by the failing forward iteration. -/
def deployFailErr (gw : Gateway) (call : StackOp → Except PyError String)
    (waitOp : String) (p : StackOp) : PyError :=
  match call p with
  | .error e => e
  | .ok _ =>
    match gw.wait waitOp p.StackName 5 120 with
    | .error e => e
    | .ok _ => PyError.gateway ""

/-- Events of one fully successful teardown iteration. -/
def delSuccTrace (p : StackOp) : List Event :=
  [Event.deleteCall p.StackName,
   Event.logInfo (p.StackName ++ " is being deleted"),
   Event.waitCall "stack_delete_complete" p.StackName 5 120,
   Event.logInfo (p.StackName ++ " is deleted")]

/-- Remote API invocations of one fully successful teardown
iteration. -/
def delGwPair (p : StackOp) : List Event :=
  [Event.deleteCall p.StackName,
   Event.waitCall "stack_delete_complete" p.StackName 5 120]

/-- Events of the teardown iteration at which the sequence fails. -/
def delFailTrace (gw : Gateway) (p : StackOp) : List Event :=
  match gw.delete p.StackName with
  | .error _ => [Event.deleteCall p.StackName]
  | .ok _ =>
    [Event.deleteCall p.StackName,
     Event.logInfo (p.StackName ++ " is being deleted"),
     Event.waitCall "stack_delete_complete" p.StackName 5 120]

/-- The exception raised by the failing teardown iteration. -/
def delFailErr (gw : Gateway) (p : StackOp) : PyError :=
  match gw.delete p.StackName with
  | .error e => e
  | .ok _ =>
    match gw.wait "stack_delete_complete" p.StackName 5 120 with
    | .error e => e
    | .ok _ => PyError.gateway ""

/-- Result list of a runner invocation. -/
def runResult (r : List StackOp × List Event × Option PyError) : List StackOp :=
  r.1

/-- Event trace of a runner invocation. -/
def runTrace (r : List StackOp × List Event × Option PyError) : List Event :=
  r.2.1

/-- Exception propagating out of a runner invocation, if any. -/
def runRaised (r : List StackOp × List Event × Option PyError) : Option PyError :=
  r.2.2

/-- State-changing events the code performs on one operation's
StackId over its lifetime: line 91 (`param["StackId"] = response
["StackId"]`, after a successful create or update call) and line 123
(`param.pop("StackId", None)`, after a successful delete call and
wait). -/
inductive OpEvent where
  | createOrUpdateCompleted (handle : String)
  | deleteCompleted
deriving Repr, DecidableEq

/-- Effect of one state-changing event on the StackId field, exactly
as the two assignment sites perform it. -/
def applyOpEvent (s : Option String) : OpEvent → Option String
  | .createOrUpdateCompleted h => some h
  | .deleteCompleted => none

/-- StackId of an operation after a history of state-changing
events, starting from `init`. -/
def opState (init : Option String) (evs : List OpEvent) : Option String :=
  evs.foldl applyOpEvent init

/-- Agreement of two operations on every field except StackId. -/
def sameFrame (p q : StackOp) : Prop :=
  p.StackName = q.StackName ∧ p.TemplateBody = q.TemplateBody ∧
    p.Parameters = q.Parameters ∧ p.Capabilities = q.Capabilities

/-- A concrete operation used to instantiate the theorems. -/
def opA : StackOp :=
  { StackName := "a", TemplateBody := "ta", Parameters := [("k", "v")],
    Capabilities := [], StackId := none }

/-- A second concrete operation. -/
def opB : StackOp :=
  { StackName := "b", TemplateBody := "tb", Parameters := [],
    Capabilities := ["CAPABILITY_IAM"], StackId := none }

/-- A third concrete operation, carrying a StackId from an earlier
run. -/
def opC : StackOp :=
  { StackName := "c", TemplateBody := "tc", Parameters := [],
    Capabilities := [], StackId := some "old-c" }

/-- A gateway on which every call and every wait succeeds. -/
def gwOK : Gateway :=
  { create := fun p => .ok ("id-" ++ p.StackName),
    update := fun p => .ok ("uid-" ++ p.StackName),
    delete := fun _ => .ok (),
    wait := fun _ _ _ _ => .ok () }

/-- A gateway whose create, update and delete calls are rejected for
the stack named `b` and succeed elsewhere. -/
def gwFailB : Gateway :=
  { create := fun p => if p.StackName = "b" then .error (.gateway "denied")
      else .ok ("id-" ++ p.StackName),
    update := fun p => if p.StackName = "b" then .error (.gateway "denied")
      else .ok ("uid-" ++ p.StackName),
    delete := fun n => if n = "b" then .error (.gateway "denied")
      else .ok (),
    wait := fun _ _ _ _ => .ok () }

/-- A gateway on which every call succeeds but the wait for the stack
named `b` times out. -/
def gwWaitFailB : Gateway :=
  { create := fun p => .ok ("id-" ++ p.StackName),
    update := fun p => .ok ("uid-" ++ p.StackName),
    delete := fun _ => .ok (),
    wait := fun _ n _ _ => if n = "b" then .error (.waiter "timeout")
      else .ok () }

/-- Every list splits at the first element falsifying `P`, when one
exists. -/
theorem exists_first_fail {α : Type} (P : α → Bool) :
    ∀ l : List α, (∀ a ∈ l, P a = true) ∨
      ∃ pre x post, l = pre ++ x :: post ∧
        (∀ a ∈ pre, P a = true) ∧ P x = false := by
  intro l
  induction l with
  | nil => exact Or.inl (by intro a ha; cases ha)
  | cons a l ih =>
    cases hPa : P a with
    | false =>
      refine Or.inr ⟨[], a, l, rfl, ?_, hPa⟩
      intro q hq
      cases hq
    | true =>
      cases ih with
      | inl h =>
        refine Or.inl ?_
        intro q hq
        rcases List.mem_cons.mp hq with h1 | h2
        · exact h1 ▸ hPa
        · exact h q h2
      | inr h =>
        obtain ⟨pre, x, post, hl, hpre, hx⟩ := h
        refine Or.inr ⟨a :: pre, x, post, by rw [hl, List.cons_append], ?_, hx⟩
        intro q hq
        rcases List.mem_cons.mp hq with h1 | h2
        · exact h1 ▸ hPa
        · exact hpre q h2

/-- When every operation of the sequence succeeds, the forward loop
stamps every StackId, emits the four events of every iteration in
order, and raises nothing. -/
theorem deployLoop_all_ok (gw : Gateway) (call : StackOp → Except PyError String)
    (waitOp msg : String) (params : List StackOp)
    (h : ∀ p ∈ params, opOk gw call waitOp p = true) :
    deployLoop gw call waitOp msg params =
      (params.map (setIdWith call), params.flatMap (succTrace waitOp msg), none) := by
  induction params with
  | nil => rfl
  | cons p rest ih =>
    have hp := h p (List.mem_cons_self p rest)
    have hrest : ∀ q ∈ rest, opOk gw call waitOp q = true :=
      fun q hq => h q (List.mem_cons_of_mem p hq)
    rw [opOk, Bool.and_eq_true] at hp
    obtain ⟨h1, h2⟩ := hp
    cases hc : call p with
    | error e => rw [hc] at h1; simp [exOk] at h1
    | ok v =>
      cases hw : gw.wait waitOp p.StackName 5 120 with
      | error e => rw [hw] at h2; simp [exOk] at h2
      | ok u =>
        simp [deployLoop, hc, wait_stack, hw, ih hrest, setIdWith, succTrace]

/-- When the operations before `p` succeed and the iteration at `p`
fails, the forward loop processes exactly the prefix and the failing
call, leaves the suffix untouched, and the body raises the exception
of the failing step. -/
theorem deployLoop_first_fail (gw : Gateway) (call : StackOp → Except PyError String)
    (waitOp msg : String) (pre post : List StackOp) (p : StackOp)
    (hpre : ∀ q ∈ pre, opOk gw call waitOp q = true)
    (hp : opOk gw call waitOp p = false) :
    deployLoop gw call waitOp msg (pre ++ p :: post) =
      (pre.map (setIdWith call) ++ setIdWith call p :: post,
       pre.flatMap (succTrace waitOp msg) ++ deployFailTrace call waitOp msg p,
       some (deployFailErr gw call waitOp p)) := by
  induction pre with
  | nil =>
    rw [opOk] at hp
    cases hc : call p with
    | error e =>
      simp [deployLoop, hc, deployFailTrace, deployFailErr, setIdWith]
    | ok v =>
      cases hw : gw.wait waitOp p.StackName 5 120 with
      | error e =>
        simp [deployLoop, hc, wait_stack, hw, deployFailTrace, deployFailErr,
          setIdWith]
      | ok u =>
        exfalso
        rw [hc, hw] at hp
        simp [exOk] at hp
  | cons q pre ih =>
    have hq := hpre q (List.mem_cons_self q pre)
    have hpre' : ∀ r ∈ pre, opOk gw call waitOp r = true :=
      fun r hr => hpre r (List.mem_cons_of_mem q hr)
    rw [opOk, Bool.and_eq_true] at hq
    obtain ⟨h1, h2⟩ := hq
    cases hc : call q with
    | error e => rw [hc] at h1; simp [exOk] at h1
    | ok v =>
      cases hw : gw.wait waitOp q.StackName 5 120 with
      | error e => rw [hw] at h2; simp [exOk] at h2
      | ok u =>
        simp [deployLoop, hc, wait_stack, hw, ih hpre', setIdWith, succTrace]

/-- When every delete iteration succeeds, the teardown loop pops every
StackId, emits the four events per iteration in the order given, and
raises nothing. -/
theorem deleteLoop_all_ok (gw : Gateway) (params : List StackOp)
    (h : ∀ p ∈ params, delOpOk gw p = true) :
    deleteLoop gw params =
      (params.map clearId, params.flatMap delSuccTrace, none) := by
  induction params with
  | nil => rfl
  | cons p rest ih =>
    have hp := h p (List.mem_cons_self p rest)
    have hrest : ∀ q ∈ rest, delOpOk gw q = true :=
      fun q hq => h q (List.mem_cons_of_mem p hq)
    rw [delOpOk, Bool.and_eq_true] at hp
    obtain ⟨h1, h2⟩ := hp
    cases hc : gw.delete p.StackName with
    | error e => rw [hc] at h1; simp [exOk] at h1
    | ok v =>
      cases hw : gw.wait "stack_delete_complete" p.StackName 5 120 with
      | error e => rw [hw] at h2; simp [exOk] at h2
      | ok u =>
        simp [deleteLoop, hc, wait_stack, hw, ih hrest, clearId, delSuccTrace]

/-- When the deletes before `p` succeed and the iteration at `p`
fails, the teardown loop pops exactly the StackIds of the prefix,
leaves `p` and the suffix untouched, and the body raises the exception
of the failing step. -/
theorem deleteLoop_first_fail (gw : Gateway) (pre post : List StackOp) (p : StackOp)
    (hpre : ∀ q ∈ pre, delOpOk gw q = true)
    (hp : delOpOk gw p = false) :
    deleteLoop gw (pre ++ p :: post) =
      (pre.map clearId ++ p :: post,
       pre.flatMap delSuccTrace ++ delFailTrace gw p,
       some (delFailErr gw p)) := by
  induction pre with
  | nil =>
    rw [delOpOk] at hp
    cases hc : gw.delete p.StackName with
    | error e =>
      simp [deleteLoop, hc, delFailTrace, delFailErr]
    | ok v =>
      cases hw : gw.wait "stack_delete_complete" p.StackName 5 120 with
      | error e =>
        simp [deleteLoop, hc, wait_stack, hw, delFailTrace, delFailErr]
      | ok u =>
        exfalso
        rw [hc, hw] at hp
        simp [exOk] at hp
  | cons q pre ih =>
    have hq := hpre q (List.mem_cons_self q pre)
    have hpre' : ∀ r ∈ pre, delOpOk gw r = true :=
      fun r hr => hpre r (List.mem_cons_of_mem q hr)
    rw [delOpOk, Bool.and_eq_true] at hq
    obtain ⟨h1, h2⟩ := hq
    cases hc : gw.delete q.StackName with
    | error e => rw [hc] at h1; simp [exOk] at h1
    | ok v =>
      cases hw : gw.wait "stack_delete_complete" q.StackName 5 120 with
      | error e => rw [hw] at h2; simp [exOk] at h2
      | ok u =>
        simp [deleteLoop, hc, wait_stack, hw, ih hpre', clearId, delSuccTrace]

/-- On a recognised method, `deploy_in_order` is the dispatched loop
under the logging catch. -/
theorem deploy_in_order_valid (gw : Gateway) (params : List StackOp)
    (m : Method) (hm : m = Method.create_stack ∨ m = Method.update_stack) :
    deploy_in_order gw params m =
      reportCatch (deployLoop gw (methodCallFn gw m) (methodWaitOp m)
        (methodMsg m) params) := by
  rcases hm with h | h <;> subst h <;> rfl

/-- The trace projection distributes over concatenation. -/
theorem gwTrace_append (a b : List Event) :
    gwTrace (a ++ b) = gwTrace a ++ gwTrace b :=
  List.filter_append a b

/-- The trace projection distributes over flatMap. -/
theorem gwTrace_flatMap {β : Type} (l : List β) (f : β → List Event) :
    gwTrace (l.flatMap f) = l.flatMap (fun x => gwTrace (f x)) :=
  List.filter_flatMap l f isGatewayEvent

/-- The API invocations of a successful forward iteration are its
call and its wait. -/
theorem gwTrace_succTrace (waitOp msg : String) (p : StackOp) :
    gwTrace (succTrace waitOp msg p) = gwPair waitOp p := rfl

/-- The API invocations of a successful teardown iteration are its
delete call and its wait. -/
theorem gwTrace_delSuccTrace (p : StackOp) :
    gwTrace (delSuccTrace p) = delGwPair p := rfl

/-- The logging catch never lets an exception escape. -/
theorem reportCatch_raised (r : List StackOp × List Event × Option PyError) :
    (reportCatch r).2.2 = none := by
  cases h : r.2.2 <;> simp [reportCatch, h]

/-- The logging catch keeps the result list. -/
theorem reportCatch_fst (r : List StackOp × List Event × Option PyError) :
    (reportCatch r).1 = r.1 := by
  cases h : r.2.2 <;> simp [reportCatch, h]

/-- The logging catch appends exactly the error log line, when the
loop raised. -/
theorem reportCatch_trace_of_some (r : List StackOp × List Event × Option PyError)
    (e : PyError) (h : r.2.2 = some e) :
    (reportCatch r).2.1 = r.2.1 ++ [Event.logError e] := by
  simp [reportCatch, h]

/-- The logging catch keeps the trace untouched when the loop
succeeded. -/
theorem reportCatch_trace_of_none (r : List StackOp × List Event × Option PyError)
    (h : r.2.2 = none) :
    (reportCatch r).2.1 = r.2.1 := by
  simp [reportCatch, h]

/-- The forward loop never changes the length of the sequence. -/
theorem deployLoop_length (gw : Gateway) (call : StackOp → Except PyError String)
    (waitOp msg : String) :
    ∀ params : List StackOp,
      (deployLoop gw call waitOp msg params).1.length = params.length := by
  intro params
  induction params with
  | nil => rfl
  | cons p rest ih =>
    cases hc : call p with
    | error e => simp [deployLoop, hc]
    | ok v =>
      cases hw : gw.wait waitOp p.StackName 5 120 with
      | error e => simp [deployLoop, hc, wait_stack, hw]
      | ok u => simp [deployLoop, hc, wait_stack, hw, ih]

/-- The teardown loop never changes the length of the sequence. -/
theorem deleteLoop_length (gw : Gateway) :
    ∀ params : List StackOp,
      (deleteLoop gw params).1.length = params.length := by
  intro params
  induction params with
  | nil => rfl
  | cons p rest ih =>
    cases hc : gw.delete p.StackName with
    | error e => simp [deleteLoop, hc]
    | ok v =>
      cases hw : gw.wait "stack_delete_complete" p.StackName 5 120 with
      | error e => simp [deleteLoop, hc, wait_stack, hw]
      | ok u => simp [deleteLoop, hc, wait_stack, hw, ih]

/-- Every wait event the forward loop emits carries the default
budget and the dispatched waiter name. -/
theorem deployLoop_wait_mem (gw : Gateway) (call : StackOp → Except PyError String)
    (waitOp msg : String) :
    ∀ (params : List StackOp) (op n : String) (d a : Nat),
      Event.waitCall op n d a ∈ (deployLoop gw call waitOp msg params).2.1 →
        d = 5 ∧ a = 120 ∧ op = waitOp := by
  intro params
  induction params with
  | nil =>
    intro op n d a h
    simp [deployLoop] at h
  | cons p rest ih =>
    intro op n d a h
    cases hc : call p with
    | error e =>
      simp [deployLoop, hc] at h
    | ok v =>
      cases hw : gw.wait waitOp p.StackName 5 120 with
      | error e =>
        simp [deployLoop, hc, wait_stack, hw] at h
        exact ⟨h.2.2.1, h.2.2.2, h.1⟩
      | ok u =>
        simp [deployLoop, hc, wait_stack, hw] at h
        rcases h with h | h
        · exact ⟨h.2.2.1, h.2.2.2, h.1⟩
        · exact ih op n d a h

/-- Every wait event the teardown loop emits carries the default
budget and the delete waiter name. -/
theorem deleteLoop_wait_mem (gw : Gateway) :
    ∀ (params : List StackOp) (op n : String) (d a : Nat),
      Event.waitCall op n d a ∈ (deleteLoop gw params).2.1 →
        d = 5 ∧ a = 120 ∧ op = "stack_delete_complete" := by
  intro params
  induction params with
  | nil =>
    intro op n d a h
    simp [deleteLoop] at h
  | cons p rest ih =>
    intro op n d a h
    cases hc : gw.delete p.StackName with
    | error e =>
      simp [deleteLoop, hc] at h
    | ok v =>
      cases hw : gw.wait "stack_delete_complete" p.StackName 5 120 with
      | error e =>
        simp [deleteLoop, hc, wait_stack, hw] at h
        exact ⟨h.2.2.1, h.2.2.2, h.1⟩
      | ok u =>
        simp [deleteLoop, hc, wait_stack, hw] at h
        rcases h with h | h
        · exact ⟨h.2.2.1, h.2.2.2, h.1⟩
        · exact ih op n d a h

/-- The sleep-poll loop exits within the first n+1 polls exactly when
the guard is false at one of those polls. -/
theorem joinReturnsWithin_iff (cond : List Bool → Bool) :
    ∀ (n : Nat) (liveness : Nat → List Bool),
      joinReturnsWithin cond liveness n = true ↔
        ∃ t ≤ n, cond (liveness t) = false := by
  intro n
  induction n with
  | zero =>
    intro l
    simp only [joinReturnsWithin, Bool.not_eq_true']
    constructor
    · intro h
      exact ⟨0, Nat.le_refl 0, h⟩
    · rintro ⟨t, ht, h⟩
      rw [Nat.le_zero] at ht
      rw [ht] at h
      exact h
  | succ n ih =>
    intro l
    simp only [joinReturnsWithin, Bool.or_eq_true, Bool.not_eq_true', ih]
    constructor
    · rintro (h | ⟨t, ht, h⟩)
      · exact ⟨0, Nat.zero_le _, h⟩
      · exact ⟨t + 1, Nat.succ_le_succ ht, h⟩
    · rintro ⟨t, ht, h⟩
      cases t with
      | zero => exact Or.inl h
      | succ t => exact Or.inr ⟨t, Nat.le_of_succ_le_succ ht, h⟩

/-- After a history of StackId events, the identifier is present
exactly when the history is non-empty and its last event is a
completed create or update. -/
theorem opState_isSome_iff (evs : List OpEvent) :
    (opState none evs).isSome = true ↔
      ∃ hdl, evs.getLast? = some (OpEvent.createOrUpdateCompleted hdl) := by
  induction evs using List.reverseRecOn with
  | nil => simp [opState]
  | append_singleton l e ih =>
    rw [opState, List.foldl_append]
    cases e with
    | createOrUpdateCompleted h =>
      simp [applyOpEvent, List.getLast?_concat]
    | deleteCompleted =>
      simp [applyOpEvent, List.getLast?_concat]

/-- Pointwise-reflexive relations hold between a list and itself. -/
theorem forall₂_of_refl {α : Type} {R : α → α → Prop} (h : ∀ a, R a a) :
    ∀ l : List α, List.Forall₂ R l l := by
  intro l
  induction l with
  | nil => exact List.Forall₂.nil
  | cons a l ih => exact List.Forall₂.cons (h a) ih

/-- Pointwise relations hold between a mapped list and the
original. -/
theorem forall₂_map_left {α β : Type} {R : β → α → Prop} (f : α → β)
    (h : ∀ a, R (f a) a) : ∀ l : List α, List.Forall₂ R (l.map f) l := by
  intro l
  induction l with
  | nil => exact List.Forall₂.nil
  | cons a l ih => exact List.Forall₂.cons (h a) ih

/-- The forward loop changes at most the StackId of each operation,
and only by writing a returned handle into it. -/
theorem deployLoop_frame (gw : Gateway) (call : StackOp → Except PyError String)
    (waitOp msg : String) :
    ∀ params : List StackOp,
      List.Forall₂ (fun o q => sameFrame o q ∧
          (o.StackId = q.StackId ∨ ∃ hdl, o.StackId = some hdl))
        (deployLoop gw call waitOp msg params).1 params := by
  intro params
  induction params with
  | nil => exact List.Forall₂.nil
  | cons p rest ih =>
    have hrefl : ∀ q : StackOp, sameFrame q q ∧
        (q.StackId = q.StackId ∨ ∃ hdl, q.StackId = some hdl) :=
      fun q => ⟨⟨rfl, rfl, rfl, rfl⟩, Or.inl rfl⟩
    cases hc : call p with
    | error e =>
      simp only [deployLoop, hc]
      exact List.Forall₂.cons (hrefl p) (forall₂_of_refl hrefl rest)
    | ok v =>
      have hset : sameFrame { p with StackId := some v } p ∧
          (({ p with StackId := some v } : StackOp).StackId = p.StackId ∨
            ∃ hdl, ({ p with StackId := some v } : StackOp).StackId = some hdl) :=
        ⟨⟨rfl, rfl, rfl, rfl⟩, Or.inr ⟨v, rfl⟩⟩
      cases hw : gw.wait waitOp p.StackName 5 120 with
      | error e =>
        simp only [deployLoop, hc, wait_stack, hw]
        exact List.Forall₂.cons hset (forall₂_of_refl hrefl rest)
      | ok u =>
        simp only [deployLoop, hc, wait_stack, hw]
        exact List.Forall₂.cons hset ih

/-- The teardown loop changes at most the StackId of each operation,
and only by removing it. -/
theorem deleteLoop_frame (gw : Gateway) :
    ∀ params : List StackOp,
      List.Forall₂ (fun o q => sameFrame o q ∧
          (o.StackId = q.StackId ∨ o.StackId = none))
        (deleteLoop gw params).1 params := by
  intro params
  induction params with
  | nil => exact List.Forall₂.nil
  | cons p rest ih =>
    have hrefl : ∀ q : StackOp, sameFrame q q ∧
        (q.StackId = q.StackId ∨ q.StackId = none) :=
      fun q => ⟨⟨rfl, rfl, rfl, rfl⟩, Or.inl rfl⟩
    cases hc : gw.delete p.StackName with
    | error e =>
      simp only [deleteLoop, hc]
      exact List.Forall₂.cons (hrefl p) (forall₂_of_refl hrefl rest)
    | ok v =>
      cases hw : gw.wait "stack_delete_complete" p.StackName 5 120 with
      | error e =>
        simp only [deleteLoop, hc, wait_stack, hw]
        exact List.Forall₂.cons (hrefl p) (forall₂_of_refl hrefl rest)
      | ok u =>
        simp only [deleteLoop, hc, wait_stack, hw]
        exact List.Forall₂.cons
          ⟨⟨rfl, rfl, rfl, rfl⟩, Or.inr rfl⟩ ih

/-- C9: for every method argument other than the create or update
gateway function, `deploy_in_order` raises `ValueError` before any
gateway call or wait is invoked (the event trace is empty), the
sequence is returned exactly as it was (no StackId assigned), and the
rejection propagates out instead of being caught by the runner catch
block. -/
theorem claim_C9 (gw : Gateway) (params : List StackOp) (tag : String) :
    deploy_in_order gw params (Method.other tag) =
      (params, [], some (PyError.valueError tag)) := rfl

/-- C1: the claim that `deploy_parallel` and `delete_parallel` of
`src/cf-deploy.py` return once all workers have terminated is false.
The join guard `filter(lambda job: job.is_alive(), jobs)` is a filter
object, which is truthy no matter what, so (first conjunct) the poll
loop never exits within any number of polls under any liveness
schedule, and (second conjunct) the guard still holds when both
workers have terminated.  The third conjunct shows the intended
behaviour, present in the `src/scripts/cf-deploy.py` copy of the
loop: with the guard wrapped in `list(...)`, the loop exits within
n+1 polls exactly when at some poll no worker is alive. -/
theorem claim_C1 :
    (∀ (liveness : Nat → List Bool) (n : Nat),
      joinReturnsWithin join_loop_cond liveness n = false)
  ∧ join_loop_cond [false, false] = true
  ∧ (∀ (liveness : Nat → List Bool) (n : Nat),
      joinReturnsWithin join_loop_cond_scripts liveness n = true ↔
        ∃ t ≤ n, ∀ b ∈ liveness t, b = false) := by
  refine ⟨?_, rfl, ?_⟩
  · intro liveness n
    cases h : joinReturnsWithin join_loop_cond liveness n with
    | false => rfl
    | true =>
      exfalso
      obtain ⟨t, ht, hf⟩ := (joinReturnsWithin_iff join_loop_cond n liveness).mp h
      simp [join_loop_cond] at hf
  · intro liveness n
    rw [joinReturnsWithin_iff]
    constructor
    · rintro ⟨t, ht, hf⟩
      refine ⟨t, ht, ?_⟩
      simp only [join_loop_cond_scripts, Bool.not_eq_false',
        List.isEmpty_iff, List.filter_eq_nil_iff] at hf
      intro b hb
      exact Bool.eq_false_iff.mpr (hf b hb)
    · rintro ⟨t, ht, hf⟩
      refine ⟨t, ht, ?_⟩
      simp only [join_loop_cond_scripts, Bool.not_eq_false',
        List.isEmpty_iff, List.filter_eq_nil_iff]
      intro b hb
      rw [hf b hb]
      simp

/-- C2: the claim that after a successful wait the forward runner of
`src/cf-deploy.py` logs the action actually performed is false for
updates: with a succeeding gateway, updating the single stack `b`
emits the post-wait line `b is created` (line 95 hardcodes the word
`created`) and never emits `b is updated`. -/
theorem claim_C2 :
    runTrace (deploy_in_order gwOK [opB] Method.update_stack) =
      [Event.methodCall "b", Event.logInfo "b is being updated",
       Event.waitCall "stack_update_complete" "b" 5 120,
       Event.logInfo "b is created"]
  ∧ Event.logInfo "b is updated" ∉
      runTrace (deploy_in_order gwOK [opB] Method.update_stack) := by
  constructor
  · rfl
  · decide

/-- C6: failure containment at the runner boundary.  For every
gateway behaviour and sequence, `deploy_in_order` (with either
recognised method) and `delete_in_reverse_order` raise nothing — the
first three conjuncts; whenever the loop body raised an exception the
runner logs exactly that exception — the next three; and the runner
returns its sequence structure, one element per input operation — the
last three. -/
theorem claim_C6 (gw : Gateway) (params : List StackOp) :
    runRaised (deploy_in_order gw params Method.create_stack) = none
  ∧ runRaised (deploy_in_order gw params Method.update_stack) = none
  ∧ runRaised (delete_in_reverse_order gw params) = none
  ∧ (∀ e, (deployLoop gw gw.create "stack_create_complete" "created" params).2.2
        = some e →
      Event.logError e ∈ runTrace (deploy_in_order gw params Method.create_stack))
  ∧ (∀ e, (deployLoop gw gw.update "stack_update_complete" "updated" params).2.2
        = some e →
      Event.logError e ∈ runTrace (deploy_in_order gw params Method.update_stack))
  ∧ (∀ e, (deleteLoop gw params.reverse).2.2 = some e →
      Event.logError e ∈ runTrace (delete_in_reverse_order gw params))
  ∧ (runResult (deploy_in_order gw params Method.create_stack)).length
      = params.length
  ∧ (runResult (deploy_in_order gw params Method.update_stack)).length
      = params.length
  ∧ (runResult (delete_in_reverse_order gw params)).length = params.length := by
  refine ⟨?_, ?_, ?_, ?_, ?_, ?_, ?_, ?_, ?_⟩
  · exact reportCatch_raised _
  · exact reportCatch_raised _
  · exact reportCatch_raised _
  · intro e he
    show Event.logError e ∈
      (reportCatch (deployLoop gw gw.create "stack_create_complete" "created"
        params)).2.1
    rw [reportCatch_trace_of_some _ e he]
    simp
  · intro e he
    show Event.logError e ∈
      (reportCatch (deployLoop gw gw.update "stack_update_complete" "updated"
        params)).2.1
    rw [reportCatch_trace_of_some _ e he]
    simp
  · intro e he
    show Event.logError e ∈ (reportCatch (deleteLoop gw params.reverse)).2.1
    rw [reportCatch_trace_of_some _ e he]
    simp
  · show ((reportCatch (deployLoop gw gw.create "stack_create_complete" "created"
        params)).1).length = params.length
    rw [reportCatch_fst]
    exact deployLoop_length gw gw.create "stack_create_complete" "created" params
  · show ((reportCatch (deployLoop gw gw.update "stack_update_complete" "updated"
        params)).1).length = params.length
    rw [reportCatch_fst]
    exact deployLoop_length gw gw.update "stack_update_complete" "updated" params
  · show ((reportCatch (deleteLoop gw params.reverse)).1.reverse).length
      = params.length
    rw [List.length_reverse, reportCatch_fst, deleteLoop_length,
      List.length_reverse]

/-- C6 witness: on a gateway rejecting the stack `b`, the create run
over `[opA, opB]` raises nothing, logs exactly the rejection, and
returns a two-element sequence. -/
theorem claim_C6_witness :
    runRaised (deploy_in_order gwFailB [opA, opB] Method.create_stack) = none
  ∧ Event.logError (PyError.gateway "denied") ∈
      runTrace (deploy_in_order gwFailB [opA, opB] Method.create_stack)
  ∧ (runResult (deploy_in_order gwFailB [opA, opB] Method.create_stack)).length
      = 2 := by
  have h := claim_C6 gwFailB [opA, opB]
  refine ⟨h.1, ?_, ?_⟩
  · exact h.2.2.2.1 (PyError.gateway "denied") (by decide)
  · exact h.2.2.2.2.2.2.1

/-- C4: teardown order is the exact reverse of the sequence order.
When every delete iteration succeeds, the event trace of
`delete_in_reverse_order` on `[s1, ..., sk]` is the per-operation
trace of sk, then of s(k-1), ..., then of s1; in particular the
remote invocations (Delete and its wait) happen for sk first and s1
last. -/
theorem claim_C4 (gw : Gateway) (params : List StackOp)
    (h : ∀ p ∈ params, delOpOk gw p = true) :
    runTrace (delete_in_reverse_order gw params) =
      params.reverse.flatMap delSuccTrace
  ∧ gwTrace (runTrace (delete_in_reverse_order gw params)) =
      params.reverse.flatMap delGwPair := by
  have hrev : ∀ p ∈ params.reverse, delOpOk gw p = true := by
    intro p hp
    exact h p (List.mem_reverse.mp hp)
  have hall := deleteLoop_all_ok gw params.reverse hrev
  have htr : runTrace (delete_in_reverse_order gw params) =
      params.reverse.flatMap delSuccTrace := by
    show (reportCatch (deleteLoop gw params.reverse)).2.1 =
      params.reverse.flatMap delSuccTrace
    rw [reportCatch_trace_of_none _ (by rw [hall]), hall]
  refine ⟨htr, ?_⟩
  rw [htr, gwTrace_flatMap]
  simp only [gwTrace_delSuccTrace]

/-- C4 witness: deleting the concrete sequence `[opA, opB, opC]` with
an all-succeeding gateway invokes Delete and its wait for `c` first,
then `b`, then `a`. -/
theorem claim_C4_witness :
    (∀ p ∈ [opA, opB, opC], delOpOk gwOK p = true)
  ∧ runTrace (delete_in_reverse_order gwOK [opA, opB, opC]) =
      [Event.deleteCall "c", Event.logInfo "c is being deleted",
       Event.waitCall "stack_delete_complete" "c" 5 120,
       Event.logInfo "c is deleted",
       Event.deleteCall "b", Event.logInfo "b is being deleted",
       Event.waitCall "stack_delete_complete" "b" 5 120,
       Event.logInfo "b is deleted",
       Event.deleteCall "a", Event.logInfo "a is being deleted",
       Event.waitCall "stack_delete_complete" "a" 5 120,
       Event.logInfo "a is deleted"] := by
  have h : ∀ p ∈ [opA, opB, opC], delOpOk gwOK p = true := by decide
  refine ⟨h, ?_⟩
  rw [(claim_C4 gwOK [opA, opB, opC] h).1]
  rfl

/-- C3: abort on failure.  If every iteration before `p` succeeds and
the iteration at `p` fails (its gateway call raises, or its wait
raises), then the run returns the prefix with StackIds stamped, `p`
with a StackId only if its call succeeded, and the suffix exactly as
it was passed in (so a StackId absent there stays absent); and the
full event trace is built from the prefix, the failing step and the
error log alone, so no gateway call or wait is ever invoked for the
operations after `p`. -/
theorem claim_C3 (gw : Gateway) (m : Method) (pre post : List StackOp) (p : StackOp)
    (hm : m = Method.create_stack ∨ m = Method.update_stack)
    (hpre : ∀ q ∈ pre, opOk gw (methodCallFn gw m) (methodWaitOp m) q = true)
    (hp : opOk gw (methodCallFn gw m) (methodWaitOp m) p = false) :
    runResult (deploy_in_order gw (pre ++ p :: post) m) =
      pre.map (setIdWith (methodCallFn gw m)) ++
        setIdWith (methodCallFn gw m) p :: post
  ∧ runTrace (deploy_in_order gw (pre ++ p :: post) m) =
      pre.flatMap (succTrace (methodWaitOp m) (methodMsg m)) ++
        deployFailTrace (methodCallFn gw m) (methodWaitOp m) (methodMsg m) p ++
        [Event.logError (deployFailErr gw (methodCallFn gw m) (methodWaitOp m) p)] := by
  rw [deploy_in_order_valid gw _ m hm]
  have hff := deployLoop_first_fail gw (methodCallFn gw m) (methodWaitOp m)
    (methodMsg m) pre post p hpre hp
  constructor
  · show (reportCatch (deployLoop gw (methodCallFn gw m) (methodWaitOp m)
      (methodMsg m) (pre ++ p :: post))).1 = _
    rw [reportCatch_fst, hff]
  · show (reportCatch (deployLoop gw (methodCallFn gw m) (methodWaitOp m)
      (methodMsg m) (pre ++ p :: post))).2.1 = _
    rw [reportCatch_trace_of_some _ _ (by rw [hff]), hff]

/-- C3 witness: on the gateway rejecting stack `b`, creating
`[opA, opB, opC]` stamps a StackId on `a` only, leaves `b` and `c`
untouched, and the remote invocations stop at the call for `b` — none
is issued for `c`. -/
theorem claim_C3_witness :
    (∀ q ∈ [opA], opOk gwFailB (methodCallFn gwFailB Method.create_stack)
        (methodWaitOp Method.create_stack) q = true)
  ∧ opOk gwFailB (methodCallFn gwFailB Method.create_stack)
      (methodWaitOp Method.create_stack) opB = false
  ∧ runResult (deploy_in_order gwFailB [opA, opB, opC] Method.create_stack) =
      [{ opA with StackId := some "id-a" }, opB, opC]
  ∧ gwTrace (runTrace (deploy_in_order gwFailB [opA, opB, opC]
        Method.create_stack)) =
      [Event.methodCall "a", Event.waitCall "stack_create_complete" "a" 5 120,
       Event.methodCall "b"] := by
  have h1 : ∀ q ∈ [opA], opOk gwFailB (methodCallFn gwFailB Method.create_stack)
      (methodWaitOp Method.create_stack) q = true := by decide
  have h2 : opOk gwFailB (methodCallFn gwFailB Method.create_stack)
      (methodWaitOp Method.create_stack) opB = false := by decide
  have h := claim_C3 gwFailB Method.create_stack [opA] [opC] opB
    (Or.inl rfl) h1 h2
  exact ⟨h1, h2, h.1.trans (by decide), (congrArg gwTrace h.2).trans (by decide)⟩

/-- C7: strict intra-sequence ordering.  First conjunct: for a fully
successful sequence the remote invocations of the forward run are
exactly call(s1), wait(s1), ..., call(sk), wait(sk) in that order.
Second conjunct: in every run the invocation trace is the
call-then-wait pairs of the successful prefix, followed at most by
the failing call of the operation at which the run stops (alone when
the call raised, with its wait when the wait raised) — so the call
for an operation never starts before the wait of the previous
operation has returned success. -/
theorem claim_C7 (gw : Gateway) (m : Method) (params : List StackOp)
    (hm : m = Method.create_stack ∨ m = Method.update_stack) :
    ((∀ p ∈ params, opOk gw (methodCallFn gw m) (methodWaitOp m) p = true) →
      gwTrace (runTrace (deploy_in_order gw params m)) =
        params.flatMap (gwPair (methodWaitOp m)))
  ∧ ((∀ p ∈ params, opOk gw (methodCallFn gw m) (methodWaitOp m) p = true) ∨
      ∃ pre x post, params = pre ++ x :: post ∧
        (∀ q ∈ pre, opOk gw (methodCallFn gw m) (methodWaitOp m) q = true) ∧
        opOk gw (methodCallFn gw m) (methodWaitOp m) x = false ∧
        (gwTrace (runTrace (deploy_in_order gw params m)) =
            pre.flatMap (gwPair (methodWaitOp m)) ++ [Event.methodCall x.StackName]
          ∨ gwTrace (runTrace (deploy_in_order gw params m)) =
            pre.flatMap (gwPair (methodWaitOp m)) ++ gwPair (methodWaitOp m) x)) := by
  constructor
  · intro hall
    rw [deploy_in_order_valid gw _ m hm]
    have hok := deployLoop_all_ok gw (methodCallFn gw m) (methodWaitOp m)
      (methodMsg m) params hall
    show gwTrace ((reportCatch (deployLoop gw (methodCallFn gw m)
      (methodWaitOp m) (methodMsg m) params)).2.1) = _
    rw [reportCatch_trace_of_none _ (by rw [hok]), hok, gwTrace_flatMap]
    simp only [gwTrace_succTrace]
  · rcases exists_first_fail (opOk gw (methodCallFn gw m) (methodWaitOp m)) params
      with hall | ⟨pre, x, post, hsplit, hpre, hx⟩
    · exact Or.inl hall
    · refine Or.inr ⟨pre, x, post, hsplit, hpre, hx, ?_⟩
      subst hsplit
      rw [deploy_in_order_valid gw _ m hm]
      have hff := deployLoop_first_fail gw (methodCallFn gw m) (methodWaitOp m)
        (methodMsg m) pre post x hpre hx
      have htr : (reportCatch (deployLoop gw (methodCallFn gw m) (methodWaitOp m)
          (methodMsg m) (pre ++ x :: post))).2.1 =
          pre.flatMap (succTrace (methodWaitOp m) (methodMsg m)) ++
            deployFailTrace (methodCallFn gw m) (methodWaitOp m) (methodMsg m) x ++
            [Event.logError (deployFailErr gw (methodCallFn gw m)
              (methodWaitOp m) x)] := by
        rw [reportCatch_trace_of_some _ _ (by rw [hff]), hff]
      show gwTrace ((reportCatch (deployLoop gw (methodCallFn gw m)
        (methodWaitOp m) (methodMsg m) (pre ++ x :: post))).2.1) =
          _ ∨ gwTrace ((reportCatch (deployLoop gw (methodCallFn gw m)
        (methodWaitOp m) (methodMsg m) (pre ++ x :: post))).2.1) = _
      rw [htr]
      cases hc : methodCallFn gw m x with
      | error e =>
        refine Or.inl ?_
        rw [gwTrace_append, gwTrace_append, gwTrace_flatMap]
        simp only [gwTrace_succTrace]
        simp [gwTrace, deployFailTrace, hc, isGatewayEvent]
      | ok v =>
        refine Or.inr ?_
        rw [gwTrace_append, gwTrace_append, gwTrace_flatMap]
        simp only [gwTrace_succTrace]
        simp [gwTrace, deployFailTrace, hc, isGatewayEvent, gwPair]
        rfl

/-- C7 witness: creating the concrete sequence `[opA, opB]` on an
all-succeeding gateway produces exactly call(a), wait(a), call(b),
wait(b). -/
theorem claim_C7_witness :
    (∀ p ∈ [opA, opB], opOk gwOK (methodCallFn gwOK Method.create_stack)
        (methodWaitOp Method.create_stack) p = true)
  ∧ gwTrace (runTrace (deploy_in_order gwOK [opA, opB] Method.create_stack)) =
      [Event.methodCall "a", Event.waitCall "stack_create_complete" "a" 5 120,
       Event.methodCall "b", Event.waitCall "stack_create_complete" "b" 5 120] := by
  have h1 : ∀ p ∈ [opA, opB], opOk gwOK (methodCallFn gwOK Method.create_stack)
      (methodWaitOp Method.create_stack) p = true := by decide
  have h := (claim_C7 gwOK Method.create_stack [opA, opB] (Or.inl rfl)).1 h1
  exact ⟨h1, h.trans (by decide)⟩

/-- A wait event in a runner trace was emitted by the loop body, not
by the error log line the catch appends. -/
theorem reportCatch_mem_wait (r : List StackOp × List Event × Option PyError)
    (op n : String) (d a : Nat)
    (h : Event.waitCall op n d a ∈ (reportCatch r).2.1) :
    Event.waitCall op n d a ∈ r.2.1 := by
  cases he : r.2.2 with
  | none =>
    rw [reportCatch_trace_of_none r he] at h
    exact h
  | some e =>
    rw [reportCatch_trace_of_some r e he] at h
    rcases List.mem_append.mp h with h1 | h1
    · exact h1
    · simp at h1

/-- C8: every wait the runners issue uses the `wait_stack` defaults —
delay 5 and 120 attempts — and the kind-specific waiter: the
dispatched one in the forward runner (`stack_create_complete` for
create, `stack_update_complete` for update) and
`stack_delete_complete` in the teardown runner; and `wait_stack`
called without explicit budget records exactly delay 5 and 120
attempts. -/
theorem claim_C8 (gw : Gateway) (m : Method) (params : List StackOp)
    (op n : String) (d a : Nat)
    (hm : m = Method.create_stack ∨ m = Method.update_stack) :
    (Event.waitCall op n d a ∈ runTrace (deploy_in_order gw params m) →
        d = 5 ∧ a = 120 ∧ op = methodWaitOp m)
  ∧ (Event.waitCall op n d a ∈ runTrace (delete_in_reverse_order gw params) →
        d = 5 ∧ a = 120 ∧ op = "stack_delete_complete")
  ∧ methodWaitOp Method.create_stack = "stack_create_complete"
  ∧ methodWaitOp Method.update_stack = "stack_update_complete"
  ∧ (wait_stack gw op n).1 = [Event.waitCall op n 5 120] := by
  refine ⟨?_, ?_, rfl, rfl, rfl⟩
  · intro h
    rw [deploy_in_order_valid gw _ m hm] at h
    exact deployLoop_wait_mem gw (methodCallFn gw m) (methodWaitOp m)
      (methodMsg m) params op n d a (reportCatch_mem_wait _ op n d a h)
  · intro h
    exact deleteLoop_wait_mem gw params.reverse op n d a
      (reportCatch_mem_wait _ op n d a h)

/-- C8 witness: the create run over `[opA]` does emit a wait event,
and it carries delay 5, 120 attempts and the create waiter. -/
theorem claim_C8_witness :
    Event.waitCall "stack_create_complete" "a" 5 120 ∈
      runTrace (deploy_in_order gwOK [opA] Method.create_stack)
  ∧ ((5 : Nat) = 5 ∧ (120 : Nat) = 120 ∧
      "stack_create_complete" = methodWaitOp Method.create_stack) := by
  have hmem : Event.waitCall "stack_create_complete" "a" 5 120 ∈
      runTrace (deploy_in_order gwOK [opA] Method.create_stack) := by decide
  exact ⟨hmem, (claim_C8 gwOK Method.create_stack [opA] "stack_create_complete"
    "a" 5 120 (Or.inl rfl)).1 hmem⟩

/-- Handles returned by the all-succeeding gateway are never
empty. -/
theorem gwOK_handle_ne (q : StackOp) (r : String)
    (h : methodCallFn gwOK Method.create_stack q = Except.ok r) : r ≠ "" := by
  simp only [methodCallFn, gwOK] at h
  intro hr
  rw [Except.ok.injEq] at h
  rw [← h] at hr
  have hlen := congrArg String.length hr
  rw [String.length_append] at hlen
  have h3 : ("id-" : String).length = 3 := rfl
  have h0 : ("" : String).length = 0 := rfl
  rw [h3, h0] at hlen
  omega

/-- C5: remote identifier lifecycle.  Under the gateway contract that
returned handles are non-empty: a fully successful forward run stamps
every operation with `setIdWith`, and a successful call stores
exactly the returned handle, which is non-empty, as the code site of
line 91 (the `createOrUpdateCompleted` event) does; a fully
successful teardown run clears every StackId, as the code site of
line 123 (the `deleteCompleted` event) does; and over any history of
these two state-changing events, the StackId is present exactly when
the last completed create/update has not been followed by a completed
delete, i.e. when the last event is a completed create/update. -/
theorem claim_C5 (gw : Gateway) (m : Method) (params : List StackOp)
    (hm : m = Method.create_stack ∨ m = Method.update_stack)
    (hgw : ∀ q r, methodCallFn gw m q = Except.ok r → r ≠ "") :
    ((∀ p ∈ params, opOk gw (methodCallFn gw m) (methodWaitOp m) p = true) →
      runResult (deploy_in_order gw params m) =
        params.map (setIdWith (methodCallFn gw m)))
  ∧ (∀ q hdl, methodCallFn gw m q = Except.ok hdl →
      (setIdWith (methodCallFn gw m) q).StackId = some hdl ∧ hdl ≠ "" ∧
        (setIdWith (methodCallFn gw m) q).StackId =
          applyOpEvent q.StackId (OpEvent.createOrUpdateCompleted hdl))
  ∧ ((∀ p ∈ params, delOpOk gw p = true) →
      runResult (delete_in_reverse_order gw params) = params.map clearId)
  ∧ (∀ q : StackOp, (clearId q).StackId = none ∧
      (clearId q).StackId = applyOpEvent q.StackId OpEvent.deleteCompleted)
  ∧ (∀ evs : List OpEvent, (opState none evs).isSome = true ↔
      ∃ hdl, evs.getLast? = some (OpEvent.createOrUpdateCompleted hdl)) := by
  refine ⟨?_, ?_, ?_, ?_, opState_isSome_iff⟩
  · intro hall
    rw [deploy_in_order_valid gw _ m hm]
    show (reportCatch (deployLoop gw (methodCallFn gw m) (methodWaitOp m)
      (methodMsg m) params)).1 = _
    rw [reportCatch_fst,
      deployLoop_all_ok gw (methodCallFn gw m) (methodWaitOp m) (methodMsg m)
        params hall]
  · intro q hdl hq
    refine ⟨?_, hgw q hdl hq, ?_⟩
    · simp [setIdWith, hq]
    · simp [setIdWith, hq, applyOpEvent]
  · intro hall
    have hrev : ∀ p ∈ params.reverse, delOpOk gw p = true := by
      intro p hp
      exact hall p (List.mem_reverse.mp hp)
    show (reportCatch (deleteLoop gw params.reverse)).1.reverse = _
    rw [reportCatch_fst, deleteLoop_all_ok gw params.reverse hrev,
      List.map_reverse, List.reverse_reverse]
  · intro q
    exact ⟨rfl, rfl⟩

/-- C5 witness: on the all-succeeding gateway, creating `[opC]` sets
its StackId to the non-empty handle `id-c`, deleting `[opC]` removes
the StackId, and the event-history characterisation evaluates on a
concrete two-event history. -/
theorem claim_C5_witness :
    (∀ p ∈ [opC], opOk gwOK (methodCallFn gwOK Method.create_stack)
        (methodWaitOp Method.create_stack) p = true)
  ∧ runResult (deploy_in_order gwOK [opC] Method.create_stack) =
      [{ opC with StackId := some "id-c" }]
  ∧ (∀ p ∈ [opC], delOpOk gwOK p = true)
  ∧ runResult (delete_in_reverse_order gwOK [opC]) =
      [{ opC with StackId := none }]
  ∧ ((opState none [OpEvent.createOrUpdateCompleted "id-c",
        OpEvent.deleteCompleted]).isSome = true ↔
      ∃ hdl, ([OpEvent.createOrUpdateCompleted "id-c",
        OpEvent.deleteCompleted] : List OpEvent).getLast? =
          some (OpEvent.createOrUpdateCompleted hdl)) := by
  have h := claim_C5 gwOK Method.create_stack [opC] (Or.inl rfl) gwOK_handle_ne
  refine ⟨by decide, ?_, by decide, ?_, h.2.2.2.2 _⟩
  · exact (h.1 (by decide)).trans (by decide)
  · exact (h.2.2.1 (by decide)).trans (by decide)

/-- The forward runner changes at most the StackId field, whatever
the method. -/
theorem deploy_in_order_frame (gw : Gateway) (params : List StackOp) (m : Method) :
    List.Forall₂ (fun o q => sameFrame o q ∧
        (o.StackId = q.StackId ∨ ∃ hdl, o.StackId = some hdl))
      (runResult (deploy_in_order gw params m)) params := by
  have hrefl : ∀ q : StackOp, sameFrame q q ∧
      (q.StackId = q.StackId ∨ ∃ hdl, q.StackId = some hdl) :=
    fun q => ⟨⟨rfl, rfl, rfl, rfl⟩, Or.inl rfl⟩
  cases m with
  | other tag => exact forall₂_of_refl hrefl params
  | create_stack =>
    have h : runResult (deploy_in_order gw params Method.create_stack) =
        (deployLoop gw (methodCallFn gw Method.create_stack)
          (methodWaitOp Method.create_stack) (methodMsg Method.create_stack)
          params).1 := reportCatch_fst _
    rw [h]
    exact deployLoop_frame gw _ _ _ params
  | update_stack =>
    have h : runResult (deploy_in_order gw params Method.update_stack) =
        (deployLoop gw (methodCallFn gw Method.update_stack)
          (methodWaitOp Method.update_stack) (methodMsg Method.update_stack)
          params).1 := reportCatch_fst _
    rw [h]
    exact deployLoop_frame gw _ _ _ params

/-- The teardown runner changes at most the StackId field. -/
theorem delete_in_reverse_order_frame (gw : Gateway) (params : List StackOp) :
    List.Forall₂ (fun o q => sameFrame o q ∧
        (o.StackId = q.StackId ∨ o.StackId = none))
      (runResult (delete_in_reverse_order gw params)) params := by
  have h1 := deleteLoop_frame gw params.reverse
  have h2 := List.forall₂_reverse_iff.mpr h1
  rw [List.reverse_reverse] at h2
  have h3 : runResult (delete_in_reverse_order gw params) =
      (deleteLoop gw params.reverse).1.reverse := by
    show (reportCatch (deleteLoop gw params.reverse)).1.reverse = _
    rw [reportCatch_fst]
  rw [h3]
  exact h2

/-- C10: frame property.  Both runners and both parallel variants
leave StackName, TemplateBody, Parameters and Capabilities of every
operation unchanged; the forward runner touches StackId only by
leaving it or writing some handle, and the teardown runner only by
leaving it or removing it. -/
theorem claim_C10 (gw : Gateway) (m : Method) (params : List StackOp)
    (seqs : List (List StackOp)) :
    List.Forall₂ sameFrame (runResult (deploy_in_order gw params m)) params
  ∧ List.Forall₂ (fun o q => o.StackId = q.StackId ∨ ∃ hdl, o.StackId = some hdl)
      (runResult (deploy_in_order gw params m)) params
  ∧ List.Forall₂ sameFrame (runResult (delete_in_reverse_order gw params)) params
  ∧ List.Forall₂ (fun o q => o.StackId = q.StackId ∨ o.StackId = none)
      (runResult (delete_in_reverse_order gw params)) params
  ∧ List.Forall₂ (List.Forall₂ sameFrame) (deploy_parallel gw seqs m) seqs
  ∧ List.Forall₂ (List.Forall₂ sameFrame) (delete_parallel gw seqs) seqs := by
  refine ⟨?_, ?_, ?_, ?_, ?_, ?_⟩
  · exact (deploy_in_order_frame gw params m).imp (fun _ _ hab => hab.1)
  · exact (deploy_in_order_frame gw params m).imp (fun _ _ hab => hab.2)
  · exact (delete_in_reverse_order_frame gw params).imp (fun _ _ hab => hab.1)
  · exact (delete_in_reverse_order_frame gw params).imp (fun _ _ hab => hab.2)
  · exact forall₂_map_left _
      (fun s => (deploy_in_order_frame gw s m).imp (fun _ _ hab => hab.1)) seqs
  · exact forall₂_map_left _
      (fun s => (delete_in_reverse_order_frame gw s).imp (fun _ _ hab => hab.1)) seqs
